import Mathlib

/-!
Verification of the database layer of `monotree` (`src/database.rs`).

Shallow embedding conventions:

* Keys and values are byte sequences; both are modelled as `List Nat`
  (the layer never computes on the bytes, it only stores and compares
  them).  Keys in the intended usage are fixed-size hash digests, and
  `slice_to_hash` (a byte-for-byte copy of a key slice into a `Hash`
  array) is modelled as the identity on the key.
* `HashMap`/`HashSet` fields are modelled as functions
  (`Bytes → Option Bytes`, `Bytes → Bool`); the Postgres batch
  `HashMap<Vec<u8>, Vec<u8>>` is modelled as an association list with
  unique keys, because `finish_batch` iterates it to build a multi-row
  upsert and also tests emptiness.
* Each Rust method on `&mut self` returning `Result<T>` becomes a Lean
  function `State → State × Except Errors T`: the first component is the
  state of `self` after the call (well-defined even when the `Result` is
  an error, exactly as in Rust), the second is the returned `Result`.
* Engine point reads/writes (`db.get`, `db.put`, `db.delete`, the SQL
  statements outside batch mode) are modelled as total map operations on
  the engine state; the only fallible engine call the claims depend on
  is the grouped write issued by `finish_batch`, whose outcome is passed
  in as an explicit oracle argument `wres : Except Errors Unit`.
* Mutex locking and `expect` panics are outside the model.
-/

/-- Byte strings: both keys and values of the storage layer. -/
abbrev Bytes := List Nat

/-- The uniform error kind wrapping each backend's native error. -/
inductive Errors where
  | mk : String → Errors
deriving DecidableEq

/-- The staging cache: a tombstone set `set` and a value mapping `map`
(fields `set : HashSet<Hash>`, `map : HashMap<Hash, Vec<u8>>`). -/
structure MemCache where
  set : Bytes → Bool
  map : Bytes → Option Bytes

/-- `MemCache::new`: empty tombstone set and empty value mapping. -/
def MemCache.new : MemCache :=
  { set := fun _ => false, map := fun _ => none }

/-- `MemCache::clear`: clears both the set and the map. -/
def MemCache.clear (_c : MemCache) : MemCache :=
  { set := fun _ => false, map := fun _ => none }

/-- `MemCache::contains`: key present as tombstone or as live value. -/
def MemCache.contains (c : MemCache) (key : Bytes) : Bool :=
  c.set key || (c.map key).isSome

/-- `MemCache::get`: map lookup; in the source this always returns `Ok`. -/
def MemCache.get (c : MemCache) (key : Bytes) : Except Errors (Option Bytes) :=
  match c.map key with
  | some v => .ok (some v)
  | none => .ok none

/-- `MemCache::put`: insert into the map; remove the key from the
tombstone set if it is there (the source guards the removal with a
`contains` check).  Always returns `Ok(())` in the source. -/
def MemCache.put (c : MemCache) (key value : Bytes) : MemCache :=
  let map := fun k => if k = key then some value else c.map k
  let set := if c.set key then fun k => if k = key then false else c.set k else c.set
  { set := set, map := map }

/-- `MemCache::delete`: remove from the map, insert into the tombstone
set.  Always returns `Ok(())` in the source. -/
def MemCache.delete (c : MemCache) (key : Bytes) : MemCache :=
  { set := fun k => if k = key then true else c.set k,
    map := fun k => if k = key then none else c.map k }

/-- Disjointness of the two cache components: no key is simultaneously a
tombstone and a live value. -/
def MemCache.disjoint (c : MemCache) : Prop :=
  ∀ k, ¬(c.set k = true ∧ (c.map k).isSome = true)

/-- `MemoryDB`: the volatile map adapter, a bare `HashMap`. -/
structure MemoryDB where
  db : Bytes → Option Bytes

/-- `MemoryDB::get`. -/
def MemoryDB.get (s : MemoryDB) (key : Bytes) : MemoryDB × Except Errors (Option Bytes) :=
  match s.db key with
  | some v => (s, .ok (some v))
  | none => (s, .ok none)

/-- `MemoryDB::put`. -/
def MemoryDB.put (s : MemoryDB) (key value : Bytes) : MemoryDB × Except Errors Unit :=
  ({ db := fun k => if k = key then some value else s.db k }, .ok ())

/-- `MemoryDB::delete`. -/
def MemoryDB.delete (s : MemoryDB) (key : Bytes) : MemoryDB × Except Errors Unit :=
  ({ db := fun k => if k = key then none else s.db k }, .ok ())

/-- `MemoryDB::init_batch`: does nothing, returns `Ok(())`. -/
def MemoryDB.init_batch (s : MemoryDB) : MemoryDB × Except Errors Unit :=
  (s, .ok ())

/-- `MemoryDB::finish_batch`: does nothing, returns `Ok(())`. -/
def MemoryDB.finish_batch (s : MemoryDB) : MemoryDB × Except Errors Unit :=
  (s, .ok ())

/-- One entry of a RocksDB `WriteBatch`: a buffered put or delete. -/
inductive BatchOp where
  | put (key value : Bytes)
  | del (key : Bytes)
deriving DecidableEq

/-- Applying a RocksDB `WriteBatch` to the engine: the buffered
operations are applied in the order they were appended. -/
def applyBatch (db : Bytes → Option Bytes) : List BatchOp → (Bytes → Option Bytes)
  | [] => db
  | BatchOp.put k v :: rest => applyBatch (fun x => if x = k then some v else db x) rest
  | BatchOp.del k :: rest => applyBatch (fun x => if x = k then none else db x) rest

/-- The RocksDB adapter: engine map, ordered `WriteBatch`, staging
cache, batch-active flag. -/
structure RocksDB where
  db : Bytes → Option Bytes
  batch : List BatchOp
  cache : MemCache
  batch_on : Bool

/-- `RocksDB::get`: cache-first; on an engine hit the value is recorded
into the cache; on an engine miss nothing is cached. -/
def RocksDB.get (s : RocksDB) (key : Bytes) : RocksDB × Except Errors (Option Bytes) :=
  if s.cache.contains key then (s, s.cache.get key)
  else
    match s.db key with
    | some value => ({ s with cache := s.cache.put key value }, .ok (some value))
    | none => (s, .ok none)

/-- `RocksDB::put`: record into the cache, then either append to the
`WriteBatch` (batch mode) or write straight to the engine. -/
def RocksDB.put (s : RocksDB) (key value : Bytes) : RocksDB × Except Errors Unit :=
  let s := { s with cache := s.cache.put key value }
  if s.batch_on then ({ s with batch := s.batch ++ [BatchOp.put key value] }, .ok ())
  else ({ s with db := fun k => if k = key then some value else s.db k }, .ok ())

/-- `RocksDB::delete`: record a tombstone, then either append a delete
marker to the `WriteBatch` (batch mode) or delete from the engine. -/
def RocksDB.delete (s : RocksDB) (key : Bytes) : RocksDB × Except Errors Unit :=
  let s := { s with cache := s.cache.delete key }
  if s.batch_on then ({ s with batch := s.batch ++ [BatchOp.del key] }, .ok ())
  else ({ s with db := fun k => if k = key then none else s.db k }, .ok ())

/-- `RocksDB::init_batch`: fresh empty batch, cache cleared, flag set. -/
def RocksDB.init_batch (s : RocksDB) : RocksDB × Except Errors Unit :=
  ({ s with batch := [], cache := s.cache.clear, batch_on := true }, .ok ())

/-- `RocksDB::finish_batch`: clear the flag first; if the batch is
non-empty, take it (leaving the buffer empty) and issue the grouped
write, whose outcome is the oracle `wres`. -/
def RocksDB.finish_batch (s : RocksDB) (wres : Except Errors Unit) :
    RocksDB × Except Errors Unit :=
  let s := { s with batch_on := false }
  if !s.batch.isEmpty then
    let b := s.batch
    let s := { s with batch := [] }
    match wres with
    | .ok _ => ({ s with db := applyBatch s.db b }, .ok ())
    | .error e => (s, .error e)
  else (s, .ok ())

/-- The Sled adapter: engine map, `sled::Batch` (a pending operation per
key: `some (some v)` a buffered insert, `some none` a buffered removal),
staging cache, batch-active flag. -/
structure Sled where
  db : Bytes → Option Bytes
  batch : Bytes → Option (Option Bytes)
  cache : MemCache
  batch_on : Bool

/-- `Sled::get`: cache-first; on an engine hit the value is recorded
into the cache; on an engine miss nothing is cached. -/
def Sled.get (s : Sled) (key : Bytes) : Sled × Except Errors (Option Bytes) :=
  if s.cache.contains key then (s, s.cache.get key)
  else
    match s.db key with
    | some value => ({ s with cache := s.cache.put key value }, .ok (some value))
    | none => (s, .ok none)

/-- `Sled::put`: record into the cache, then either buffer an insert
(batch mode) or write straight to the engine. -/
def Sled.put (s : Sled) (key value : Bytes) : Sled × Except Errors Unit :=
  let s := { s with cache := s.cache.put key value }
  if s.batch_on then
    ({ s with batch := fun k => if k = key then some (some value) else s.batch k }, .ok ())
  else ({ s with db := fun k => if k = key then some value else s.db k }, .ok ())

/-- `Sled::delete`: record a tombstone, then either buffer a removal
(batch mode) or delete from the engine. -/
def Sled.delete (s : Sled) (key : Bytes) : Sled × Except Errors Unit :=
  let s := { s with cache := s.cache.delete key }
  if s.batch_on then
    ({ s with batch := fun k => if k = key then some none else s.batch k }, .ok ())
  else ({ s with db := fun k => if k = key then none else s.db k }, .ok ())

/-- `Sled::init_batch`: fresh empty batch, cache cleared, flag set. -/
def Sled.init_batch (s : Sled) : Sled × Except Errors Unit :=
  ({ s with batch := fun _ => none, cache := s.cache.clear, batch_on := true }, .ok ())

/-- `Sled::finish_batch`: clear the flag, take the batch (leaving the
buffer empty) and apply it atomically; `wres` is the outcome of
`apply_batch` (on error the engine is unchanged). -/
def Sled.finish_batch (s : Sled) (wres : Except Errors Unit) :
    Sled × Except Errors Unit :=
  let s := { s with batch_on := false }
  let b := s.batch
  let s := { s with batch := fun _ => none }
  match wres with
  | .ok _ =>
      ({ s with db := fun k => match b k with | some op => op | none => s.db k }, .ok ())
  | .error e => (s, .error e)

/-- `HashMap::insert` on the Postgres batch, as an association list with
unique keys: any old entry for the key is dropped, the new pair added. -/
def hmInsert (l : List (Bytes × Bytes)) (key value : Bytes) : List (Bytes × Bytes) :=
  l.filter (fun p => p.1 ≠ key) ++ [(key, value)]

/-- `HashMap::remove` on the Postgres batch. -/
def hmRemove (l : List (Bytes × Bytes)) (key : Bytes) : List (Bytes × Bytes) :=
  l.filter (fun p => p.1 ≠ key)

/-- The Postgres adapter: engine table (key column is the primary key),
batch `HashMap`, staging cache, batch-active flag. -/
structure Postgres where
  db : Bytes → Option Bytes
  batch : List (Bytes × Bytes)
  cache : MemCache
  batch_on : Bool

/-- `Postgres::get`: cache-first; otherwise `SELECT value … WHERE key = $1`.
Unlike the RocksDB and Sled adapters, the source does NOT record an
engine hit into the cache. -/
def Postgres.get (s : Postgres) (key : Bytes) : Postgres × Except Errors (Option Bytes) :=
  if s.cache.contains key then (s, s.cache.get key)
  else
    match s.db key with
    | some value => (s, .ok (some value))
    | none => (s, .ok none)

/-- `Postgres::put`: record into the cache, then either insert into the
batch `HashMap` (batch mode) or run a single-row upsert directly. -/
def Postgres.put (s : Postgres) (key value : Bytes) : Postgres × Except Errors Unit :=
  let s := { s with cache := s.cache.put key value }
  if s.batch_on then ({ s with batch := hmInsert s.batch key value }, .ok ())
  else ({ s with db := fun k => if k = key then some value else s.db k }, .ok ())

/-- `Postgres::delete`: record a tombstone, then — in batch mode — only
`self.batch.remove(key)`, i.e. drop any pending put for the key from the
batch `HashMap`; no delete marker of any kind is buffered.  Outside
batch mode, `DELETE … WHERE key = $1` runs directly. -/
def Postgres.delete (s : Postgres) (key : Bytes) : Postgres × Except Errors Unit :=
  let s := { s with cache := s.cache.delete key }
  if s.batch_on then ({ s with batch := hmRemove s.batch key }, .ok ())
  else ({ s with db := fun k => if k = key then none else s.db k }, .ok ())

/-- `Postgres::init_batch`: fresh empty batch, cache cleared, flag set. -/
def Postgres.init_batch (s : Postgres) : Postgres × Except Errors Unit :=
  ({ s with batch := [], cache := s.cache.clear, batch_on := true }, .ok ())

/-- `Postgres::finish_batch`: clear the flag first; if the batch is
non-empty, take it (leaving the buffer empty) and run one multi-row
upsert `INSERT … ON CONFLICT (key) DO UPDATE SET value = EXCLUDED.value`
covering every buffered pair; `wres` is the outcome of that statement. -/
def Postgres.finish_batch (s : Postgres) (wres : Except Errors Unit) :
    Postgres × Except Errors Unit :=
  let s := { s with batch_on := false }
  if !s.batch.isEmpty then
    let b := s.batch
    let s := { s with batch := [] }
    match wres with
    | .ok _ =>
        ({ s with db := b.foldl (fun d p => fun x => if x = p.1 then some p.2 else d x) s.db },
         .ok ())
    | .error e => (s, .error e)
  else (s, .ok ())

/-- A concrete Postgres state for evaluating the batched-delete loss:
the engine already holds key `[0] ↦ [1]` and a batch is open. -/
def pgC1 : Postgres :=
  { db := fun k => if k = [0] then some [1] else none,
    batch := [], cache := MemCache.new, batch_on := true }

/-- A concrete Postgres state with a populated engine and an empty
cache, outside batch mode. -/
def pgC4 : Postgres :=
  { db := fun k => if k = [0] then some [1] else none,
    batch := [], cache := MemCache.new, batch_on := false }

/-- A concrete RocksDB state with a populated engine and an empty
cache, outside batch mode. -/
def rocksC4 : RocksDB :=
  { db := fun k => if k = [0] then some [1] else none,
    batch := [], cache := MemCache.new, batch_on := false }

/-- A concrete RocksDB state with an open, empty batch. -/
def rocksC6 : RocksDB :=
  { db := fun _ => none, batch := [], cache := MemCache.new, batch_on := true }

/-- A concrete Sled state with an open, empty batch. -/
def sledC6 : Sled :=
  { db := fun _ => none, batch := fun _ => none, cache := MemCache.new, batch_on := true }

/-- A concrete Postgres state with an open, empty batch. -/
def pgC6 : Postgres :=
  { db := fun _ => none, batch := [], cache := MemCache.new, batch_on := true }

/-! Helper lemmas shared by several results. -/

/-- `RocksDB::finish_batch` never touches the staging cache. -/
theorem rocks_finish_batch_cache (s : RocksDB) (wres : Except Errors Unit) :
    (s.finish_batch wres).1.cache = s.cache := by
  cases wres <;> by_cases h : s.batch.isEmpty <;>
    simp [RocksDB.finish_batch, h]

/-- `Sled::finish_batch` never touches the staging cache. -/
theorem sled_finish_batch_cache (s : Sled) (wres : Except Errors Unit) :
    (s.finish_batch wres).1.cache = s.cache := by
  cases wres <;> simp [Sled.finish_batch]

/-- `Postgres::finish_batch` never touches the staging cache. -/
theorem pg_finish_batch_cache (s : Postgres) (wres : Except Errors Unit) :
    (s.finish_batch wres).1.cache = s.cache := by
  cases wres <;> by_cases h : s.batch.isEmpty <;>
    simp [Postgres.finish_batch, h]

/-- Applying a `WriteBatch` splits over list append. -/
theorem applyBatch_append (db : Bytes → Option Bytes) (l1 l2 : List BatchOp) :
    applyBatch db (l1 ++ l2) = applyBatch (applyBatch db l1) l2 := by
  induction l1 generalizing db with
  | nil => rfl
  | cons op rest ih => cases op <;> simp [applyBatch, ih]

/-- C10: for the MemoryDB adapter, init_batch and finish_batch are identity
operations returning `Ok(())`, and put/delete take effect on the map
immediately and observably via get, regardless of surrounding
init_batch/finish_batch calls. -/
theorem C10_memorydb_batch_identity (K V : Bytes) :
    (∀ s : MemoryDB, s.init_batch = (s, .ok ()) ∧ s.finish_batch = (s, .ok ())) ∧
    (∀ s : MemoryDB,
      ((s.put K V).2 = .ok ()) ∧
      (((s.put K V).1.get K).2 = .ok (some V)) ∧
      ((((s.put K V).1.delete K).1.get K).2 = .ok none) ∧
      (((((s.init_batch).1.put K V).1.finish_batch).1.get K).2 = .ok (some V))) := by
  refine ⟨fun s => ⟨rfl, rfl⟩, fun s => ⟨rfl, ?_, ?_, ?_⟩⟩ <;>
    simp [MemoryDB.put, MemoryDB.delete, MemoryDB.get, MemoryDB.init_batch,
      MemoryDB.finish_batch]

/-- C2: read-your-own-write — for every adapter state, put(K, V) immediately
followed by get(K) returns `Ok(Some(V))`, whether or not a batch is open. -/
theorem C2_read_your_own_write (K V : Bytes) :
    (∀ s : MemoryDB, ((s.put K V).1.get K).2 = .ok (some V)) ∧
    (∀ s : RocksDB, ((s.put K V).1.get K).2 = .ok (some V)) ∧
    (∀ s : Sled, ((s.put K V).1.get K).2 = .ok (some V)) ∧
    (∀ s : Postgres, ((s.put K V).1.get K).2 = .ok (some V)) := by
  refine ⟨fun s => ?_, fun s => ?_, fun s => ?_, fun s => ?_⟩
  · simp [MemoryDB.put, MemoryDB.get]
  · by_cases hb : s.batch_on <;>
      simp [RocksDB.put, RocksDB.get, MemCache.put, MemCache.contains, MemCache.get, hb]
  · by_cases hb : s.batch_on <;>
      simp [Sled.put, Sled.get, MemCache.put, MemCache.contains, MemCache.get, hb]
  · by_cases hb : s.batch_on <;>
      simp [Postgres.put, Postgres.get, MemCache.put, MemCache.contains, MemCache.get, hb]

/-- C9: finish_batch never modifies the staging cache, for every adapter that
has one and regardless of the grouped write's outcome. -/
theorem C9_commit_preserves_cache (wres : Except Errors Unit) :
    (∀ s : RocksDB, (s.finish_batch wres).1.cache = s.cache) ∧
    (∀ s : Sled, (s.finish_batch wres).1.cache = s.cache) ∧
    (∀ s : Postgres, (s.finish_batch wres).1.cache = s.cache) :=
  ⟨fun s => rocks_finish_batch_cache s wres,
   fun s => sled_finish_batch_cache s wres,
   fun s => pg_finish_batch_cache s wres⟩

/-- C7: after finish_batch — whatever the grouped write's outcome, error
included — the batch-active flag is cleared and the batch buffer is empty,
for every adapter with a batch. -/
theorem C7_commit_clears_flag_and_buffer (wres : Except Errors Unit) :
    (∀ s : RocksDB,
       (s.finish_batch wres).1.batch_on = false ∧ (s.finish_batch wres).1.batch = []) ∧
    (∀ s : Sled,
       (s.finish_batch wres).1.batch_on = false ∧
       ∀ k, (s.finish_batch wres).1.batch k = none) ∧
    (∀ s : Postgres,
       (s.finish_batch wres).1.batch_on = false ∧ (s.finish_batch wres).1.batch = []) := by
  refine ⟨fun s => ?_, fun s => ?_, fun s => ?_⟩
  · cases wres <;> by_cases h : s.batch.isEmpty <;>
      simp_all [RocksDB.finish_batch, List.isEmpty_iff]
  · cases wres <;> simp [Sled.finish_batch]
  · cases wres <;> by_cases h : s.batch.isEmpty <;>
      simp_all [Postgres.finish_batch, List.isEmpty_iff]

/-- C5: init_batch resets the staging cache to empty (both the value mapping
and the tombstone set), so the first get afterwards is answered from the
engine, for every adapter with a cache. -/
theorem C5_cache_reset_on_batch_start (K : Bytes) :
    (∀ s : RocksDB,
       (s.init_batch).1.cache = MemCache.new ∧
       (s.init_batch).1.cache.contains K = false ∧
       ((s.init_batch).1.get K).2 = .ok (s.db K)) ∧
    (∀ s : Sled,
       (s.init_batch).1.cache = MemCache.new ∧
       (s.init_batch).1.cache.contains K = false ∧
       ((s.init_batch).1.get K).2 = .ok (s.db K)) ∧
    (∀ s : Postgres,
       (s.init_batch).1.cache = MemCache.new ∧
       (s.init_batch).1.cache.contains K = false ∧
       ((s.init_batch).1.get K).2 = .ok (s.db K)) := by
  refine ⟨fun s => ⟨rfl, rfl, ?_⟩, fun s => ⟨rfl, rfl, ?_⟩, fun s => ⟨rfl, rfl, ?_⟩⟩
  · cases h : s.db K <;>
      simp [RocksDB.init_batch, RocksDB.get, MemCache.clear, MemCache.contains,
        MemCache.new, h]
  · cases h : s.db K <;>
      simp [Sled.init_batch, Sled.get, MemCache.clear, MemCache.contains,
        MemCache.new, h]
  · cases h : s.db K <;>
      simp [Postgres.init_batch, Postgres.get, MemCache.clear, MemCache.contains,
        MemCache.new, h]

/-- A get on a state whose cache holds a tombstone for the key is answered
authoritatively absent (RocksDB). -/
theorem rocks_get_of_tombstone (t : RocksDB) (K : Bytes)
    (h1 : t.cache.set K = true) (h2 : t.cache.map K = none) :
    (t.get K).2 = .ok none := by
  simp [RocksDB.get, MemCache.contains, MemCache.get, h1, h2]

/-- A get on a state whose cache holds a tombstone for the key is answered
authoritatively absent (Sled). -/
theorem sled_get_of_tombstone (t : Sled) (K : Bytes)
    (h1 : t.cache.set K = true) (h2 : t.cache.map K = none) :
    (t.get K).2 = .ok none := by
  simp [Sled.get, MemCache.contains, MemCache.get, h1, h2]

/-- A get on a state whose cache holds a tombstone for the key is answered
authoritatively absent (Postgres). -/
theorem pg_get_of_tombstone (t : Postgres) (K : Bytes)
    (h1 : t.cache.set K = true) (h2 : t.cache.map K = none) :
    (t.get K).2 = .ok none := by
  simp [Postgres.get, MemCache.contains, MemCache.get, h1, h2]

/-- After put(K, V) then delete(K), the RocksDB cache holds a tombstone for
K and no live value, whatever the batch flag. -/
theorem rocks_put_delete_cache (s : RocksDB) (K V : Bytes) :
    (((s.put K V).1.delete K).1).cache.set K = true ∧
    (((s.put K V).1.delete K).1).cache.map K = none := by
  by_cases hb : s.batch_on <;>
    simp [RocksDB.put, RocksDB.delete, MemCache.put, MemCache.delete, hb]

/-- After put(K, V) then delete(K), the Sled cache holds a tombstone for K
and no live value, whatever the batch flag. -/
theorem sled_put_delete_cache (s : Sled) (K V : Bytes) :
    (((s.put K V).1.delete K).1).cache.set K = true ∧
    (((s.put K V).1.delete K).1).cache.map K = none := by
  by_cases hb : s.batch_on <;>
    simp [Sled.put, Sled.delete, MemCache.put, MemCache.delete, hb]

/-- After put(K, V) then delete(K), the Postgres cache holds a tombstone for
K and no live value, whatever the batch flag. -/
theorem pg_put_delete_cache (s : Postgres) (K V : Bytes) :
    (((s.put K V).1.delete K).1).cache.set K = true ∧
    (((s.put K V).1.delete K).1).cache.map K = none := by
  by_cases hb : s.batch_on <;>
    simp [Postgres.put, Postgres.delete, MemCache.put, MemCache.delete, hb]

/-- C3: tombstone visibility — put(K, V); delete(K); get(K) returns
`Ok(None)` for every adapter state (so whether the batch flag is on or off),
both before and after a subsequent finish_batch of any outcome. -/
theorem C3_tombstone_visibility (K V : Bytes) (wres : Except Errors Unit) :
    (∀ s : MemoryDB,
       ((((s.put K V).1.delete K).1.get K).2 = .ok none) ∧
       (((((s.put K V).1.delete K).1.finish_batch).1.get K).2 = .ok none)) ∧
    (∀ s : RocksDB,
       ((((s.put K V).1.delete K).1.get K).2 = .ok none) ∧
       (((((s.put K V).1.delete K).1.finish_batch wres).1.get K).2 = .ok none)) ∧
    (∀ s : Sled,
       ((((s.put K V).1.delete K).1.get K).2 = .ok none) ∧
       (((((s.put K V).1.delete K).1.finish_batch wres).1.get K).2 = .ok none)) ∧
    (∀ s : Postgres,
       ((((s.put K V).1.delete K).1.get K).2 = .ok none) ∧
       (((((s.put K V).1.delete K).1.finish_batch wres).1.get K).2 = .ok none)) := by
  refine ⟨fun s => ?_, fun s => ?_, fun s => ?_, fun s => ?_⟩
  · constructor <;>
      simp [MemoryDB.put, MemoryDB.delete, MemoryDB.get, MemoryDB.finish_batch]
  · obtain ⟨h1, h2⟩ := rocks_put_delete_cache s K V
    refine ⟨rocks_get_of_tombstone _ K h1 h2, ?_⟩
    have hc := rocks_finish_batch_cache (((s.put K V).1.delete K).1) wres
    exact rocks_get_of_tombstone _ K (by rw [hc]; exact h1) (by rw [hc]; exact h2)
  · obtain ⟨h1, h2⟩ := sled_put_delete_cache s K V
    refine ⟨sled_get_of_tombstone _ K h1 h2, ?_⟩
    have hc := sled_finish_batch_cache (((s.put K V).1.delete K).1) wres
    exact sled_get_of_tombstone _ K (by rw [hc]; exact h1) (by rw [hc]; exact h2)
  · obtain ⟨h1, h2⟩ := pg_put_delete_cache s K V
    refine ⟨pg_get_of_tombstone _ K h1 h2, ?_⟩
    have hc := pg_finish_batch_cache (((s.put K V).1.delete K).1) wres
    exact pg_get_of_tombstone _ K (by rw [hc]; exact h1) (by rw [hc]; exact h2)

/-- A successful RocksDB finish_batch applies the buffered operations, in
order, to the engine. -/
theorem rocks_finish_ok_db (s : RocksDB) :
    (s.finish_batch (.ok ())).1.db = applyBatch s.db s.batch := by
  by_cases h : s.batch.isEmpty
  · have he : s.batch = [] := List.isEmpty_iff.mp h
    simp [RocksDB.finish_batch, h, he, applyBatch]
  · simp [RocksDB.finish_batch, h]

/-- A successful Postgres finish_batch upserts every buffered pair into the
engine table. -/
theorem pg_finish_ok_db (s : Postgres) :
    (s.finish_batch (.ok ())).1.db =
      s.batch.foldl (fun d p => fun x => if x = p.1 then some p.2 else d x) s.db := by
  by_cases h : s.batch.isEmpty
  · have he : s.batch = [] := List.isEmpty_iff.mp h
    simp [Postgres.finish_batch, h, he]
  · simp [Postgres.finish_batch, h]

/-- C6: last-write-wins — with a batch open, put(K, V1) then put(K, V2)
then a successful finish_batch leaves V2 as the engine's value for K, for
every adapter with a batch buffer. -/
theorem C6_last_write_wins (K V1 V2 : Bytes) :
    (∀ s : RocksDB, s.batch_on = true →
       ((((s.put K V1).1.put K V2).1.finish_batch (.ok ())).1.db K = some V2)) ∧
    (∀ s : Sled, s.batch_on = true →
       ((((s.put K V1).1.put K V2).1.finish_batch (.ok ())).1.db K = some V2)) ∧
    (∀ s : Postgres, s.batch_on = true →
       ((((s.put K V1).1.put K V2).1.finish_batch (.ok ())).1.db K = some V2)) := by
  refine ⟨fun s hb => ?_, fun s hb => ?_, fun s hb => ?_⟩
  · have hbatch : (((s.put K V1).1.put K V2).1).batch =
        s.batch ++ [BatchOp.put K V1, BatchOp.put K V2] := by
      simp [RocksDB.put, hb]
    have hdb : (((s.put K V1).1.put K V2).1).db = s.db := by
      simp [RocksDB.put, hb]
    rw [rocks_finish_ok_db, hbatch, hdb, applyBatch_append]
    simp [applyBatch]
  · simp [Sled.put, Sled.finish_batch, hb]
  · have hbatch : (((s.put K V1).1.put K V2).1).batch =
        hmInsert (hmInsert s.batch K V1) K V2 := by
      simp [Postgres.put, hb]
    have hdb : (((s.put K V1).1.put K V2).1).db = s.db := by
      simp [Postgres.put, hb]
    rw [pg_finish_ok_db, hbatch, hdb]
    simp [hmInsert, List.foldl_append]

/-- C6 witness: the last-write-wins theorem evaluated on concrete states
with an open batch, keys `[0]` and values `[1]`, `[2]`. -/
theorem C6_last_write_wins_witness :
    ((((rocksC6.put [0] [1]).1.put [0] [2]).1.finish_batch (.ok ())).1.db [0] = some [2]) ∧
    ((((sledC6.put [0] [1]).1.put [0] [2]).1.finish_batch (.ok ())).1.db [0] = some [2]) ∧
    ((((pgC6.put [0] [1]).1.put [0] [2]).1.finish_batch (.ok ())).1.db [0] = some [2]) :=
  ⟨(C6_last_write_wins [0] [1] [2]).1 rocksC6 rfl,
   (C6_last_write_wins [0] [1] [2]).2.1 sledC6 rfl,
   (C6_last_write_wins [0] [1] [2]).2.2 pgC6 rfl⟩

/-- C8: staging-cache disjointness — the empty cache is disjoint, clear
restores disjointness, and put/delete preserve it; moreover put installs the
key as a live value and clears its tombstone, while delete removes the live
value and installs the tombstone. -/
theorem C8_cache_disjointness :
    MemCache.disjoint MemCache.new ∧
    (∀ c : MemCache, MemCache.disjoint c.clear) ∧
    (∀ (c : MemCache) (k v : Bytes), MemCache.disjoint c →
       MemCache.disjoint (c.put k v) ∧
       (c.put k v).map k = some v ∧ (c.put k v).set k = false) ∧
    (∀ (c : MemCache) (k : Bytes), MemCache.disjoint c →
       MemCache.disjoint (c.delete k) ∧
       (c.delete k).map k = none ∧ (c.delete k).set k = true) := by
  refine ⟨fun k h => Bool.noConfusion h.1, fun c k h => Bool.noConfusion h.1, ?_, ?_⟩
  · intro c k v hd
    refine ⟨?_, by simp [MemCache.put], ?_⟩
    · intro x hx
      by_cases hs : c.set k <;> by_cases hk : x = k <;>
        simp [MemCache.put, hs, hk] at hx <;>
        exact hd x ⟨hx.1, hx.2⟩
    · by_cases hs : c.set k <;> simp [MemCache.put, hs]
  · intro c k hd
    refine ⟨?_, by simp [MemCache.delete], by simp [MemCache.delete]⟩
    intro x hx
    by_cases hk : x = k <;> simp [MemCache.delete, hk] at hx <;>
      exact hd x ⟨hx.1, hx.2⟩

/-- C8 witness: put and delete on the concrete empty cache with key `[0]`
and value `[1]`, the disjointness hypothesis discharged on the empty cache. -/
theorem C8_cache_disjointness_witness :
    (MemCache.disjoint (MemCache.new.put [0] [1]) ∧
       (MemCache.new.put [0] [1]).map [0] = some [1] ∧
       (MemCache.new.put [0] [1]).set [0] = false) ∧
    (MemCache.disjoint (MemCache.new.delete [0]) ∧
       (MemCache.new.delete [0]).map [0] = none ∧
       (MemCache.new.delete [0]).set [0] = true) :=
  ⟨C8_cache_disjointness.2.2.1 MemCache.new [0] [1] (fun k h => Bool.noConfusion h.1),
   C8_cache_disjointness.2.2.2 MemCache.new [0] (fun k h => Bool.noConfusion h.1)⟩

/-- C1: evaluation at the failing input — the Postgres engine holds
`[0] ↦ [1]` and a batch is open; delete([0]) records the cache tombstone but
leaves the batch buffer with no delete marker (empty), and finish_batch
returns `Ok(())` while the engine still holds `[0] ↦ [1]`: the batched
delete never reaches the engine, contrary to the claim. -/
theorem C1_postgres_batched_delete_lost :
    ((pgC1.delete [0]).1.cache.set [0] = true) ∧
    ((pgC1.delete [0]).1.batch = []) ∧
    (((pgC1.delete [0]).1.finish_batch (.ok ())).2 = .ok ()) ∧
    (((pgC1.delete [0]).1.finish_batch (.ok ())).1.db [0] = some [1]) :=
  ⟨rfl, rfl, rfl, rfl⟩

/-- C4 counterexample: on a Postgres state with an empty cache and the
engine holding `[0] ↦ [1]`, get([0]) returns the engine value but the
staging cache still has no entry for `[0]` afterwards — the engine hit is
not recorded into the cache, contrary to the claim. -/
theorem C4_postgres_no_caching_counterexample :
    ((pgC4.get [0]).2 = .ok (some [1])) ∧
    ((pgC4.get [0]).1.cache.map [0] = none) ∧
    ((pgC4.get [0]).1.cache.contains [0] = false) :=
  ⟨rfl, rfl, rfl⟩

/-- C4 amended: when the cache gives no authoritative answer, get queries
the engine and returns its answer; the RocksDB and Sled adapters record an
engine hit into the staging cache and leave the state unchanged on a miss,
while the Postgres adapter leaves its state (cache included) unchanged in
both cases. -/
theorem C4_engine_query_on_cache_miss (K : Bytes) :
    (∀ s : RocksDB, s.cache.contains K = false →
       ((s.get K).2 = .ok (s.db K)) ∧
       (∀ V, s.db K = some V → (s.get K).1.cache.map K = some V) ∧
       (s.db K = none → (s.get K).1 = s)) ∧
    (∀ s : Sled, s.cache.contains K = false →
       ((s.get K).2 = .ok (s.db K)) ∧
       (∀ V, s.db K = some V → (s.get K).1.cache.map K = some V) ∧
       (s.db K = none → (s.get K).1 = s)) ∧
    (∀ s : Postgres, s.cache.contains K = false →
       ((s.get K).2 = .ok (s.db K)) ∧ ((s.get K).1 = s)) := by
  refine ⟨fun s h => ⟨?_, fun V hV => ?_, fun hV => ?_⟩,
          fun s h => ⟨?_, fun V hV => ?_, fun hV => ?_⟩,
          fun s h => ⟨?_, ?_⟩⟩
  · cases hd : s.db K <;> simp [RocksDB.get, h, hd]
  · simp [RocksDB.get, h, hV, MemCache.put]
  · simp [RocksDB.get, h, hV]
  · cases hd : s.db K <;> simp [Sled.get, h, hd]
  · simp [Sled.get, h, hV, MemCache.put]
  · simp [Sled.get, h, hV]
  · cases hd : s.db K <;> simp [Postgres.get, h, hd]
  · cases hd : s.db K <;> simp [Postgres.get, h, hd]

/-- C4 amended witness: the amended theorem evaluated on concrete RocksDB
and Postgres states whose engines hold `[0] ↦ [1]` and whose caches are
empty. -/
theorem C4_engine_query_on_cache_miss_witness :
    (((rocksC4.get [0]).2 = .ok (rocksC4.db [0])) ∧
       ((rocksC4.get [0]).1.cache.map [0] = some [1])) ∧
    (((pgC4.get [0]).2 = .ok (pgC4.db [0])) ∧ ((pgC4.get [0]).1 = pgC4)) :=
  ⟨⟨((C4_engine_query_on_cache_miss [0]).1 rocksC4 rfl).1,
    ((C4_engine_query_on_cache_miss [0]).1 rocksC4 rfl).2.1 [1] rfl⟩,
   ⟨((C4_engine_query_on_cache_miss [0]).2.2 pgC4 rfl).1,
    ((C4_engine_query_on_cache_miss [0]).2.2 pgC4 rfl).2⟩⟩
